import Mathlib

/-!
Verification of the snakes-ladders engine (src/src/main.rs) against its
specification.  The Rust source is shallowly embedded: `usize` becomes `Nat`,
fallible operations (index panics, failed asserts, `%` by zero) become
`Option`, and the unbounded bump-resolution `loop` takes an explicit fuel
argument, returning `none` when the fuel runs out (the source promises the
board produces no bump loops, so every claim is stated on executions that
return `some`).
-/

namespace SnakesLadders

def MAX_CELLS : Nat := 999

def MAX_PLAYERS : Nat := 26

inductive PowerType where
  | Escalator
  | Antivenom
  | Double
deriving DecidableEq, Repr

/-- `PowerType::label` from the source. -/
def PowerType.label : PowerType → String
  | .Escalator => "e"
  | .Antivenom => "a"
  | .Double => "d"

inductive CellProperty where
  | Plain
  | SnakeStart (tgt : Nat)
  | LadderStart (tgt : Nat)
  | PowerUp (pt : PowerType)
  | Winning
deriving DecidableEq, Repr

/-- `CellProperty::label` from the source. -/
def CellProperty.label : CellProperty → String
  | .Plain => "  "
  | .SnakeStart _ => " S"
  | .LadderStart _ => " L"
  | .PowerUp pt => pt.label ++ " "
  | .Winning => "  "

structure PlayerState where
  loc : Nat := 0
  powerup : Option PowerType := none
deriving DecidableEq, Repr

/-- `PlayerState::go`. -/
def PlayerState.go (p : PlayerState) (l : Nat) : PlayerState :=
  { p with loc := l }

/-- `PlayerState::set_powerup`. -/
def PlayerState.set_powerup (p : PlayerState) (pt : PowerType) : PlayerState :=
  { p with powerup := some pt }

/-- `PlayerState::use_double`: returns the effective delta together with the
updated player (the source mutates `self` and returns the delta). -/
def PlayerState.use_double (p : PlayerState) (die : Nat) : Nat × PlayerState :=
  if p.powerup = some PowerType.Double then
    (die * 2, { p with powerup := none })
  else
    (die, p)

/-- `PlayerState::use_escalator`: `self.loc += 2 * (there - self.loc)` on
`usize`.  The `Nat` truncated subtraction agrees with the source exactly when
`p.loc ≤ there` (a ladder's end above its start, the source's stated
convention); when `there < p.loc` the source's `usize` subtraction
underflows — an abort in a checked build, a wrap otherwise — so theorems
about the escalator climb carry the hypothesis `p.loc ≤ there` and certify
nothing outside it. -/
def PlayerState.use_escalator (p : PlayerState) (there : Nat) : PlayerState :=
  { p with loc := p.loc + 2 * (there - p.loc), powerup := none }

/-- `PlayerState::use_antivenom`. -/
def PlayerState.use_antivenom (p : PlayerState) : PlayerState :=
  { p with powerup := none }

structure BoardConfig where
  columns : Nat := 0
  rows : Nat := 0
  cells : List CellProperty := []
deriving DecidableEq, Repr

/-- `BoardConfig::size`. -/
def BoardConfig.size (b : BoardConfig) : Nat :=
  b.columns * b.rows

/-- `BoardConfig::set_size`: the source asserts `columns * rows <= MAX_CELLS`
and then writes `Winning` at index `columns * rows - 1`; with zero cells that
index is out of bounds and the program aborts, hence `none`. -/
def BoardConfig.set_size (b : BoardConfig) (columns rows : Nat) :
    Option BoardConfig :=
  if columns * rows ≤ MAX_CELLS then
    let cells := List.replicate (columns * rows) CellProperty.Plain
    if columns * rows - 1 < cells.length then
      some { b with
             columns := columns, rows := rows,
             cells := cells.set (columns * rows - 1) CellProperty.Winning }
    else none
  else none

/-- `BoardConfig::set_cell_prop`: `self.cells[ix - 1] = cp`, an index panic
when `ix - 1` is out of bounds (including `ix = 0`). -/
def BoardConfig.set_cell_prop (b : BoardConfig) (ix : Nat)
    (cp : CellProperty) : Option BoardConfig :=
  if 1 ≤ ix ∧ ix - 1 < b.cells.length then
    some { b with cells := b.cells.set (ix - 1) cp }
  else none

/-- `BoardConfig::back_and_forth`. -/
def BoardConfig.back_and_forth (b : BoardConfig) (row column : Nat) : Nat :=
  (row - 1) * b.columns +
    (if row % 2 = 1 then column else b.columns - column + 1)

/-- `BoardConfig::between_rows`. -/
def BoardConfig.between_rows (b : BoardConfig) : String :=
  String.join (List.replicate b.columns "+---") ++ "+"

/-- `BoardConfig::between_columns`. -/
def BoardConfig.between_columns : Char := '|'

/-- `BoardConfig::cell_first_line`: the cell number right-justified in a
3-character field. -/
def BoardConfig.cell_first_line (ix : Nat) : String :=
  let s := toString ix
  String.mk (List.replicate (3 - s.length) ' ') ++ s

/-- `BoardConfig::move_wins`: advances the player by `delta`, applies the
landing cell's property, and reports a win.  The source's indexing
`self.cells[player.loc - 1]` panics out of bounds, hence `Option`. -/
def BoardConfig.move_wins (b : BoardConfig) (p : PlayerState) (delta : Nat) :
    Option (PlayerState × Bool) :=
  let cell_qty := b.cells.length
  let p1 : PlayerState := { p with loc := p.loc + delta }
  match b.cells[p1.loc - 1]? with
  | none => none
  | some CellProperty.Plain => some (p1, false)
  | some CellProperty.Winning => some (p1, true)
  | some (CellProperty.SnakeStart tgt) =>
      if p1.powerup = some PowerType.Antivenom then
        some (p1.use_antivenom, false)
      else
        some (p1.go tgt, false)
  | some (CellProperty.LadderStart tgt) =>
      if p1.powerup = some PowerType.Escalator then
        let p2 := p1.use_escalator tgt
        if cell_qty ≤ p2.loc then some (p2.go cell_qty, true)
        else some (p2, false)
      else
        some (p1.go tgt, false)
  | some (CellProperty.PowerUp pt) => some (p1.set_powerup pt, false)

/-- `player_name`: `'A' + pix` as a byte cast. -/
def player_name (pix : Nat) : Char :=
  Char.ofNat ((65 + pix) % 256)

structure GameState where
  board : BoardConfig := {}
  players : List PlayerState := []
  dice : List Nat := []
  turn : Nat := 0
deriving DecidableEq, Repr

/-- `GameState::winner`: the first player whose location is at or beyond the
board size. -/
def GameState.winner (g : GameState) : Option Char :=
  (g.players.findIdx? (fun p => g.board.size ≤ p.loc)).map player_name

/-- The `find` over enumerated players in `cell_second_line`: the first index
whose player sits at `target`. -/
def find_at : List PlayerState → Nat → Nat → Option Nat
  | [], _, _ => none
  | p :: rest, target, i =>
      if p.loc = target then some i else find_at rest target (i + 1)

/-- `GameState::cell_second_line`: player letter (or space) followed by the
cell's label.  The source indexes `cells[ix - 1]`; rendering is only invoked
with in-range indices, modelled by a `Plain` default. -/
def GameState.cell_second_line (g : GameState) (ix : Nat) : String :=
  let player_spot :=
    match find_at g.players ix 0 with
    | some which => player_name which
    | none => ' '
  String.mk [player_spot] ++ (g.board.cells.getD (ix - 1) CellProperty.Plain).label

/-- `GameState::print`: builds the reversed line list (winner line first,
then rows bottom row first), reverses it, and joins with newlines, exactly as
the source does. -/
def GameState.print (g : GameState) : String :=
  let sep := String.mk [BoardConfig.between_columns]
  let rev_out : List String :=
    (match g.winner with
     | some which => ["Player " ++ String.mk [which] ++ " won"]
     | none => []) ++
    (((List.range g.board.rows).map (· + 1)).flatMap (fun row =>
      let pieces := ((List.range g.board.columns).map (· + 1)).map (fun column =>
        let ix := g.board.back_and_forth row column
        (sep ++ BoardConfig.cell_first_line ix, sep ++ g.cell_second_line ix))
      let first_line := String.join (pieces.map Prod.fst) ++ sep
      let second_line := String.join (pieces.map Prod.snd) ++ sep
      [g.board.between_rows, second_line, first_line])) ++
    [g.board.between_rows]
  String.intercalate "\n" rev_out.reverse

/-- `GameState::roll_dice`: reads `dice[turn % dice.len()]` and increments the
turn counter; with an empty dice vector the source's `%` panics. -/
def GameState.roll_dice (g : GameState) : Option (Nat × GameState) :=
  if g.dice.isEmpty then none
  else some (g.dice.getD (g.turn % g.dice.length) 0, { g with turn := g.turn + 1 })

/-- The occupant search in `player_turn_wins`: the first index `ix ≠ current`
whose player sits at `land_loc`. -/
def find_other : List PlayerState → Nat → Nat → Nat → Option Nat
  | [], _, _, _ => none
  | p :: rest, land_loc, current, i =>
      if p.loc = land_loc ∧ i ≠ current then some i
      else find_other rest land_loc current (i + 1)

/-- The `loop` inside `player_turn_wins`: move the current player, stop on a
win, otherwise bump the first other occupant of the landing cell by a delta
of 1 and continue with them.  `fuel` bounds the chain length (the source
loops forever on a bump cycle; `none` stands for that and for index panics). -/
def bump_chain (b : BoardConfig) :
    Nat → List PlayerState → Nat → Nat → Option (List PlayerState × Bool)
  | 0, _, _, _ => none
  | fuel + 1, players, current, delta =>
      match players[current]? with
      | none => none
      | some p =>
          match b.move_wins p delta with
          | none => none
          | some (p', win) =>
              let players' := players.set current p'
              if win then some (players', true)
              else
                match find_other players' p'.loc current 0 with
                | some which => bump_chain b fuel players' which 1
                | none => some (players', false)

/-- `GameState::player_turn_wins`: roll the die, apply `use_double`, reject a
move past the end of the board, otherwise run the bump chain. -/
def GameState.player_turn_wins (g : GameState) (who : Nat) (fuel : Nat) :
    Option (GameState × Bool) :=
  match g.roll_dice with
  | none => none
  | some (die, g1) =>
      match g1.players[who]? with
      | none => none
      | some player =>
          let dp := player.use_double die
          let start_loc := player.loc
          let g2 := { g1 with players := g1.players.set who dp.2 }
          if g2.board.size < start_loc + dp.1 then some (g2, false)
          else
            match bump_chain g2.board fuel g2.players who dp.1 with
            | none => none
            | some (ps, win) => some ({ g2 with players := ps }, win)

/-- `GameState::set_player_count`: asserts the cap, then replaces the players
with `n` fresh players at cell 1. -/
def GameState.set_player_count (g : GameState) (n : Nat) :
    Option GameState :=
  if n ≤ MAX_PLAYERS then
    some { g with players := List.replicate n { loc := 1, powerup := none } }
  else none

inductive Command where
  | Board (columns rows : Nat)
  | Players (n : Nat)
  | Dice (ds : List Nat)
  | Ladder (starts ends_ : Nat)
  | Snake (starts ends_ : Nat)
  | PowerUps (typ : PowerType) (cells : List Nat)
  | Turns (qty : Nat)
deriving DecidableEq, Repr

/-- The `for c in cs` loop of the `PowerUps` arm of `GameState::apply`. -/
def set_props (pt : PowerType) : List Nat → BoardConfig → Option BoardConfig
  | [], b => some b
  | c :: cs, b =>
      match b.set_cell_prop c (CellProperty.PowerUp pt) with
      | none => none
      | some b' => set_props pt cs b'

/-- The inner player loop of the `Turns` arm: one round, each listed player in
order, stopping the whole command on the first win. -/
def play_round (fuel : Nat) : List Nat → GameState → Option (GameState × Bool)
  | [], g => some (g, false)
  | i :: rest, g =>
      match g.player_turn_wins i fuel with
      | none => none
      | some (g', true) => some (g', true)
      | some (g', false) => play_round fuel rest g'

/-- The outer loop of the `Turns` arm: up to `qty` rounds, stopping early on a
win. -/
def play_turns (fuel : Nat) : Nat → GameState → Option GameState
  | 0, g => some g
  | qty + 1, g =>
      match play_round fuel (List.range g.players.length) g with
      | none => none
      | some (g', true) => some g'
      | some (g', false) => play_turns fuel qty g'

/-- `GameState::apply`. -/
def GameState.apply (fuel : Nat) (g : GameState) : Command → Option GameState
  | .Board columns rows =>
      (g.board.set_size columns rows).map (fun b => { g with board := b })
  | .Players n => g.set_player_count n
  | .Dice ds => some { g with dice := ds }
  | .Ladder s e =>
      (g.board.set_cell_prop s (CellProperty.LadderStart e)).map
        (fun b => { g with board := b })
  | .Snake s e =>
      (g.board.set_cell_prop s (CellProperty.SnakeStart e)).map
        (fun b => { g with board := b })
  | .PowerUps pt cs =>
      (set_props pt cs g.board).map (fun b => { g with board := b })
  | .Turns qty => play_turns fuel qty g

/-- The command-application loop of `main`. -/
def run (fuel : Nat) : GameState → List Command → Option GameState
  | g, [] => some g
  | g, c :: cs =>
      match g.apply fuel c with
      | none => none
      | some g' => run fuel g' cs

/-- Per-cell well-formedness: the winning cell is the last one, and snake and
ladder targets are on the board strictly below the winning threshold. -/
def cellOK (sz i : Nat) : CellProperty → Prop
  | .Winning => i + 1 = sz
  | .SnakeStart tgt => 1 ≤ tgt ∧ tgt < sz
  | .LadderStart tgt => 1 ≤ tgt ∧ tgt < sz
  | .Plain => True
  | .PowerUp _ => True

instance (sz i : Nat) (c : CellProperty) : Decidable (cellOK sz i c) := by
  cases c <;> simp only [cellOK] <;> infer_instance

/-- A well-formed board: the cell table matches the geometry, the last cell is
`Winning`, and every cell satisfies `cellOK`.  Boards built by the setup
commands of a loop-free, in-range command stream satisfy this. -/
def WFBoard (b : BoardConfig) : Prop :=
  b.cells.length = b.size ∧
  b.cells.getD (b.size - 1) CellProperty.Plain = CellProperty.Winning ∧
  ∀ i, i < b.cells.length → cellOK b.size i (b.cells.getD i CellProperty.Plain)

instance (b : BoardConfig) : Decidable (WFBoard b) := by
  unfold WFBoard; infer_instance

lemma use_double_loc (p : PlayerState) (die : Nat) :
    (p.use_double die).2.loc = p.loc := by
  unfold PlayerState.use_double
  split <;> rfl

lemma roll_dice_some {g : GameState} {die : Nat} {g1 : GameState}
    (h : g.roll_dice = some (die, g1)) :
    g1 = { g with turn := g.turn + 1 } ∧
      die = g.dice.getD (g.turn % g.dice.length) 0 := by
  unfold GameState.roll_dice at h
  split at h
  · exact absurd h (by simp)
  · simp only [Option.some.injEq, Prod.mk.injEq] at h
    exact ⟨h.2.symm, h.1.symm⟩

/-- C6: a mover landing on a ladder-start cell while holding `Escalator`
consumes the powerup and moves to `location + 2*(end - location)` for the
landing location, clamped to the final cell with a win when the doubled climb
reaches or exceeds the board size; without `Escalator` the mover goes exactly
to the ladder's end.  The escalator conjunct requires the ladder's end at or
above the landing cell (the source's end-above-start convention): below it
the source's `usize` subtraction in `use_escalator` underflows, so the model
certifies nothing there. -/
theorem C6_ladder_landing (b : BoardConfig) (p : PlayerState) (delta tgt : Nat)
    (hlen : b.cells.length = b.size)
    (hcell : b.cells[p.loc + delta - 1]? = some (CellProperty.LadderStart tgt)) :
    (p.powerup = some PowerType.Escalator → p.loc + delta ≤ tgt →
       b.move_wins p delta =
         (if b.size ≤ p.loc + delta + 2 * (tgt - (p.loc + delta)) then
            some ({ p with loc := b.size, powerup := none }, true)
          else
            some ({ p with
                    loc := p.loc + delta + 2 * (tgt - (p.loc + delta)),
                    powerup := none },
                  false))) ∧
    (p.powerup ≠ some PowerType.Escalator →
       b.move_wins p delta = some ({ p with loc := tgt }, false)) := by
  constructor
  · intro he hclimb
    simp [BoardConfig.move_wins, hcell, he, PlayerState.use_escalator,
      PlayerState.go, hlen]
  · intro he
    simp [BoardConfig.move_wins, hcell, PlayerState.go, he]

/-- Witness for C6 on a 3-cell board whose cell 2 is a ladder to cell 3: with
`Escalator` the doubled climb overshoots and clamps to the winning cell, and
without it the mover lands exactly on cell 3. -/
theorem C6_witness :
    BoardConfig.move_wins
        ⟨3, 1, [CellProperty.Plain, CellProperty.LadderStart 3,
                CellProperty.Winning]⟩
        ⟨1, some PowerType.Escalator⟩ 1 =
      some (⟨3, none⟩, true) ∧
    BoardConfig.move_wins
        ⟨3, 1, [CellProperty.Plain, CellProperty.LadderStart 3,
                CellProperty.Winning]⟩
        ⟨1, none⟩ 1 =
      some (⟨3, none⟩, false) := by
  constructor
  · have h := (C6_ladder_landing
      ⟨3, 1, [CellProperty.Plain, CellProperty.LadderStart 3,
              CellProperty.Winning]⟩
      ⟨1, some PowerType.Escalator⟩ 1 3 (by decide) (by decide)).1 rfl
      (by decide)
    simpa using h
  · have h := (C6_ladder_landing
      ⟨3, 1, [CellProperty.Plain, CellProperty.LadderStart 3,
              CellProperty.Winning]⟩
      ⟨1, none⟩ 1 3 (by decide) (by decide)).2 (by simp)
    simpa using h

/-- C7: a mover landing on a snake-start cell while holding `Antivenom`
consumes the powerup and stays on the snake-start cell; otherwise the mover is
relocated to the snake's end.  Either way the result is not a win and is fully
determined by this equation, independent of the property of the resulting
cell (no re-evaluation). -/
theorem C7_snake_landing (b : BoardConfig) (p : PlayerState) (delta tgt : Nat)
    (hcell : b.cells[p.loc + delta - 1]? = some (CellProperty.SnakeStart tgt)) :
    (p.powerup = some PowerType.Antivenom →
       b.move_wins p delta =
         some ({ p with loc := p.loc + delta, powerup := none }, false)) ∧
    (p.powerup ≠ some PowerType.Antivenom →
       b.move_wins p delta = some ({ p with loc := tgt }, false)) := by
  constructor
  · intro ha
    simp [BoardConfig.move_wins, hcell, ha, PlayerState.use_antivenom]
  · intro ha
    simp [BoardConfig.move_wins, hcell, PlayerState.go, ha]

/-- Witness for C7 on a 3-cell board whose cell 2 is a snake back to cell 1,
with cell 1 a `Double` powerup cell: with `Antivenom` the mover stays at cell
2 with the powerup consumed; without it the mover slides to cell 1 and — no
re-evaluation — does not pick up the powerup there. -/
theorem C7_witness :
    BoardConfig.move_wins
        ⟨3, 1, [CellProperty.PowerUp PowerType.Double, CellProperty.SnakeStart 1,
                CellProperty.Winning]⟩
        ⟨1, some PowerType.Antivenom⟩ 1 =
      some (⟨2, none⟩, false) ∧
    BoardConfig.move_wins
        ⟨3, 1, [CellProperty.PowerUp PowerType.Double, CellProperty.SnakeStart 1,
                CellProperty.Winning]⟩
        ⟨1, none⟩ 1 =
      some (⟨1, none⟩, false) := by
  constructor
  · have h := (C7_snake_landing
      ⟨3, 1, [CellProperty.PowerUp PowerType.Double, CellProperty.SnakeStart 1,
              CellProperty.Winning]⟩
      ⟨1, some PowerType.Antivenom⟩ 1 1 (by decide)).1 rfl
    simpa using h
  · have h := (C7_snake_landing
      ⟨3, 1, [CellProperty.PowerUp PowerType.Double, CellProperty.SnakeStart 1,
              CellProperty.Winning]⟩
      ⟨1, none⟩ 1 1 (by decide)).2 (by simp)
    simpa using h

/-- C4: a roll whose effective delta would carry the acting player past the
board size is rejected: the call returns `false`, the board and the dice are
untouched, every player's location is unchanged, and every player other than
the actor is completely unchanged. -/
theorem C4_boundary_rejection (g : GameState) (who fuel : Nat) (die : Nat)
    (g1 : GameState) (p : PlayerState)
    (h1 : g.roll_dice = some (die, g1))
    (h2 : g.players[who]? = some p)
    (h4 : g.board.size < p.loc + (p.use_double die).1) :
    ∃ g', g.player_turn_wins who fuel = some (g', false) ∧
      g'.board = g.board ∧ g'.dice = g.dice ∧
      (∀ i : Nat, (g'.players[i]?).map PlayerState.loc =
            (g.players[i]?).map PlayerState.loc) ∧
      (∀ i : Nat, i ≠ who → g'.players[i]? = g.players[i]?) := by
  obtain ⟨hg1, hdie⟩ := roll_dice_some h1
  subst hg1
  have hlt : who < g.players.length := (List.getElem?_eq_some_iff.mp h2).1
  refine ⟨{ g with turn := g.turn + 1, players := g.players.set who (p.use_double die).2 }, ?_, rfl, rfl, ?_, ?_⟩
  · simp [GameState.player_turn_wins, h1, h2, h4]
  · intro i
    by_cases hi : i = who
    · subst hi
      simp [List.getElem?_set_self hlt, h2, use_double_loc]
    · simp [List.getElem?_set_ne (Ne.symm hi)]
  · intro i hi
    simp [List.getElem?_set_ne (Ne.symm hi)]

/-- The tiny two-cell board used by the C4 witness. -/
def w4_pre : GameState :=
  { board := { columns := 2, rows := 1, cells := [CellProperty.Plain, CellProperty.Winning] }, players := [{ loc := 1, powerup := none }], dice := [5], turn := 0 }

/-- Witness for C4: on a 2-cell board a player on cell 1 rolling a 5 is
rejected and neither the board, the dice, nor any player location changes. -/
theorem C4_witness :
    ∃ g', w4_pre.player_turn_wins 0 3 = some (g', false) ∧
      g'.board = w4_pre.board ∧ g'.dice = w4_pre.dice ∧
      (∀ i : Nat, (g'.players[i]?).map PlayerState.loc =
            (w4_pre.players[i]?).map PlayerState.loc) ∧
      (∀ i : Nat, i ≠ 0 → g'.players[i]? = w4_pre.players[i]?) :=
  C4_boundary_rejection w4_pre 0 3 5 { w4_pre with turn := 1 }
    { loc := 1, powerup := none } (by decide) (by decide) (by decide)

/-- C5: a player holding `Double` who rolls `v` gets the effective delta
`2*v` with the `Double` slot cleared by `use_double` itself — so it is lost
even when the move is then rejected by the boundary check — while a player not
holding `Double` moves by `v` with their state untouched. -/
theorem C5_double_powerup (p : PlayerState) (v : Nat) :
    (p.powerup = some PowerType.Double →
       p.use_double v = (2 * v, { p with powerup := none })) ∧
    (p.powerup ≠ some PowerType.Double → p.use_double v = (v, p)) ∧
    (∀ (g : GameState) (who fuel : Nat) (g1 : GameState),
       g.roll_dice = some (v, g1) →
       g.players[who]? = some p →
       p.powerup = some PowerType.Double →
       g.board.size < p.loc + 2 * v →
       ∃ g', g.player_turn_wins who fuel = some (g', false) ∧
         g'.players[who]? = some { p with powerup := none }) := by
  refine ⟨?_, ?_, ?_⟩
  · intro hd
    simp [PlayerState.use_double, hd, Nat.mul_comm]
  · intro hd
    simp [PlayerState.use_double, hd]
  · intro g who fuel g1 h1 h2 hd h4
    obtain ⟨hg1, hdie⟩ := roll_dice_some h1
    subst hg1
    have hlt : who < g.players.length := (List.getElem?_eq_some_iff.mp h2).1
    have hud : p.use_double v = (2 * v, { p with powerup := none }) := by
      simp [PlayerState.use_double, hd, Nat.mul_comm]
    refine ⟨{ g with turn := g.turn + 1, players := g.players.set who { p with powerup := none } }, ?_, ?_⟩
    · simp [GameState.player_turn_wins, h1, h2, hud, h4]
    · simp [List.getElem?_set_self hlt]

/-- The three-cell board used by the C5 witness: the only player holds
`Double` on cell 1 and the next die shows 2, so the doubled move of 4 is
rejected. -/
def w5_pre : GameState :=
  { board := { columns := 3, rows := 1, cells := [CellProperty.Plain, CellProperty.Plain, CellProperty.Winning] }, players := [{ loc := 1, powerup := some PowerType.Double }], dice := [2], turn := 0 }

/-- Witness for C5: `use_double` doubles the roll and clears the slot for a
`Double` holder, leaves a bare player alone, and on `w5_pre` the rejected
doubled move still costs the powerup. -/
theorem C5_witness :
    PlayerState.use_double { loc := 1, powerup := some PowerType.Double } 1 =
      (2 * 1, { loc := 1, powerup := none }) ∧
    PlayerState.use_double { loc := 1, powerup := none } 1 =
      (1, { loc := 1, powerup := none }) ∧
    (∃ g', w5_pre.player_turn_wins 0 3 = some (g', false) ∧
      g'.players[0]? = some { loc := 1, powerup := none }) := by
  refine ⟨?_, ?_, ?_⟩
  · exact (C5_double_powerup { loc := 1, powerup := some PowerType.Double } 1).1 rfl
  · exact (C5_double_powerup { loc := 1, powerup := none } 1).2.1 (by simp)
  · exact (C5_double_powerup { loc := 1, powerup := some PowerType.Double } 2).2.2
      w5_pre 0 3 { w5_pre with turn := 1 } (by decide) (by decide) rfl (by decide)

lemma bump_chain_length (b : BoardConfig) :
    ∀ (fuel : Nat) (players : List PlayerState) (cur delta : Nat)
      (ps : List PlayerState) (r : Bool),
      bump_chain b fuel players cur delta = some (ps, r) →
      ps.length = players.length := by
  intro fuel
  induction fuel with
  | zero =>
      intro players cur delta ps r h
      exact absurd h (by simp [bump_chain])
  | succ n ih =>
      intro players cur delta ps r h
      cases hp : players[cur]? with
      | none => simp [bump_chain, hp] at h
      | some p =>
          cases hm : b.move_wins p delta with
          | none => simp [bump_chain, hp, hm] at h
          | some pw =>
              obtain ⟨p', win⟩ := pw
              cases win with
              | true =>
                  simp [bump_chain, hp, hm] at h
                  rw [← h.1, List.length_set]
              | false =>
                  cases hf : find_other (players.set cur p') p'.loc cur 0 with
                  | some which =>
                      simp only [bump_chain, hp, hm, Bool.false_eq_true,
                        if_false, hf] at h
                      rw [ih _ _ _ _ _ h, List.length_set]
                  | none =>
                      simp [bump_chain, hp, hm, hf] at h
                      rw [← h.1, List.length_set]

/-- Frame facts of a resolved player-turn: the board and the dice are
untouched, the turn counter advances by exactly one, and the player count is
preserved. -/
lemma player_turn_wins_frame {g : GameState} {who fuel : Nat} {g' : GameState}
    {r : Bool} (h : g.player_turn_wins who fuel = some (g', r)) :
    g'.board = g.board ∧ g'.dice = g.dice ∧ g'.turn = g.turn + 1 ∧
      g'.players.length = g.players.length := by
  cases hr : g.roll_dice with
  | none => simp [GameState.player_turn_wins, hr] at h
  | some dg =>
      obtain ⟨die, g1⟩ := dg
      obtain ⟨hg1, -⟩ := roll_dice_some hr
      cases hp : g1.players[who]? with
      | none => simp [GameState.player_turn_wins, hr, hp] at h
      | some p =>
          by_cases hif : g1.board.size < p.loc + (p.use_double die).1
          · simp only [GameState.player_turn_wins, hr, hp, if_pos hif] at h
            simp only [Option.some.injEq, Prod.mk.injEq] at h
            rw [← h.1, hg1]
            exact ⟨rfl, rfl, rfl, by simp⟩
          · cases hb : bump_chain g1.board fuel (g1.players.set who (p.use_double die).2) who (p.use_double die).1 with
            | none =>
                simp [GameState.player_turn_wins, hr, hp, if_neg hif, hb] at h
            | some pw =>
                obtain ⟨ps, win⟩ := pw
                simp only [GameState.player_turn_wins, hr, hp, if_neg hif,
                  hb] at h
                simp only [Option.some.injEq, Prod.mk.injEq] at h
                have hlps := bump_chain_length _ _ _ _ _ _ _ hb
                rw [← h.1, hg1]
                refine ⟨rfl, rfl, rfl, ?_⟩
                simp only [List.length_set] at hlps
                simpa using hlps.trans (by rw [hg1])

/-- C8: with a non-empty dice sequence, the die consumed by a resolved
player-turn is the element at index `turn mod length`; each resolved
player-turn advances the turn counter by exactly one (and leaves the dice
unchanged), and a `dice` command replaces the sequence without touching the
turn counter. -/
theorem C8_dice_cycle :
    (∀ g : GameState, g.dice ≠ [] →
       g.roll_dice = some (g.dice.getD (g.turn % g.dice.length) 0,
                           { g with turn := g.turn + 1 })) ∧
    (∀ (g : GameState) (who fuel : Nat) (g' : GameState) (r : Bool),
       g.player_turn_wins who fuel = some (g', r) →
       g'.turn = g.turn + 1 ∧ g'.dice = g.dice) ∧
    (∀ (fuel : Nat) (g : GameState) (ds : List Nat),
       g.apply fuel (Command.Dice ds) = some { g with dice := ds }) := by
  refine ⟨?_, ?_, ?_⟩
  · intro g hne
    simp [GameState.roll_dice, hne]
  · intro g who fuel g' r h
    obtain ⟨-, hd, ht, -⟩ := player_turn_wins_frame h
    exact ⟨ht, hd⟩
  · intro fuel g ds
    rfl

/-- Witness for C8: with dice `[3, 7]` and turn counter 5 the roll consumes
index `5 mod 2 = 1` (die 7) and bumps the counter; a resolved player-turn on
`w4_pre` advances the counter from 0 to 1; a `dice` command on that state
keeps the counter. -/
theorem C8_witness :
    GameState.roll_dice { board := {}, players := [], dice := [3, 7], turn := 5 } =
      some (7, { board := {}, players := [], dice := [3, 7], turn := 6 }) ∧
    ({ w4_pre with turn := 1 } : GameState).turn = w4_pre.turn + 1 ∧
    GameState.apply 3 w4_pre (Command.Dice [9]) = some { w4_pre with dice := [9] } := by
  refine ⟨?_, ?_, ?_⟩
  · have h := C8_dice_cycle.1
      { board := {}, players := [], dice := [3, 7], turn := 5 } (by simp)
    simpa using h
  · exact (C8_dice_cycle.2.1 w4_pre 0 3 { w4_pre with turn := 1 } false
      (by decide)).1
  · exact C8_dice_cycle.2.2 3 w4_pre [9]

/-- C10: turn resolution never mutates the board configuration (columns,
rows, cell table) or the dice sequence; the turn counter advances by one and
the player count is preserved — only player states change. -/
theorem C10_turn_frame (g : GameState) (who fuel : Nat) (g' : GameState)
    (r : Bool) (h : g.player_turn_wins who fuel = some (g', r)) :
    g'.board = g.board ∧ g'.dice = g.dice ∧ g'.turn = g.turn + 1 ∧
      g'.players.length = g.players.length :=
  player_turn_wins_frame h

/-- The two-cell winning run used by the C10 witness. -/
def w10_pre : GameState :=
  { board := { columns := 2, rows := 1, cells := [CellProperty.Plain, CellProperty.Winning] }, players := [{ loc := 1, powerup := none }], dice := [1], turn := 0 }

/-- The state after the single winning turn of `w10_pre`. -/
def w10_post : GameState :=
  { board := { columns := 2, rows := 1, cells := [CellProperty.Plain, CellProperty.Winning] }, players := [{ loc := 2, powerup := none }], dice := [1], turn := 1 }

/-- Witness for C10: the winning move on `w10_pre` leaves board and dice
untouched, advances the counter to 1, and keeps one player. -/
theorem C10_witness :
    w10_post.board = w10_pre.board ∧ w10_post.dice = w10_pre.dice ∧
      w10_post.turn = w10_pre.turn + 1 ∧
      w10_post.players.length = w10_pre.players.length :=
  C10_turn_frame w10_pre 0 3 w10_post true (by decide)

/-- C9 counterexample: `setSize` with a zero cell count dies (the write of
`Winning` at cell index `columns*rows - 1` is out of bounds), even though
`0 * 5 ≤ 999` — so `columns*rows ≤ 999` alone does not guarantee the claimed
reinitialization. -/
theorem C9_counterexample :
    BoardConfig.set_size {} 0 5 = none ∧ 0 * 5 ≤ 999 := by
  constructor
  · rfl
  · decide

/-- C9 (amended: the cell count must also be positive): `size` is always
`columns*rows`; for `1 ≤ columns*rows ≤ 999`, `set_size` succeeds, every cell
is reset to `Plain` except the final cell which is `Winning` (prior cell
properties are discarded — the result does not depend on the previous cell
table), and the result is a well-formed board; a product above 999 is a fatal
error. -/
theorem C9_set_size :
    (∀ b : BoardConfig, b.size = b.columns * b.rows) ∧
    (∀ (b : BoardConfig) (c r : Nat), 1 ≤ c * r → c * r ≤ 999 →
       ∃ b', b.set_size c r = some b' ∧
         b'.columns = c ∧ b'.rows = r ∧ b'.size = c * r ∧
         b'.cells.length = c * r ∧
         b'.cells.getD (b'.size - 1) CellProperty.Plain = CellProperty.Winning ∧
         (∀ i, i < c * r - 1 →
            b'.cells.getD i CellProperty.Plain = CellProperty.Plain)) ∧
    (∀ (b : BoardConfig) (c r : Nat), 999 < c * r → b.set_size c r = none) := by
  refine ⟨fun b => rfl, ?_, ?_⟩
  · intro b c r h1 h999
    have hlt : c * r - 1 < c * r := by omega
    refine ⟨{ b with columns := c, rows := r, cells := (List.replicate (c * r) CellProperty.Plain).set (c * r - 1) CellProperty.Winning }, ?_, rfl, rfl, rfl, ?_, ?_, ?_⟩
    · unfold BoardConfig.set_size
      simp only [List.length_replicate]
      rw [if_pos (show c * r ≤ MAX_CELLS from h999),
        if_pos hlt]
    · simp
    · have hlt' : c * r - 1 <
          (List.replicate (c * r) CellProperty.Plain).length := by
        simpa using hlt
      simp [List.getD_eq_getElem?_getD, List.getElem?_set_self hlt',
        BoardConfig.size]
    · intro i hi
      have hne : c * r - 1 ≠ i := by omega
      have hi' : i < c * r := by omega
      simp [List.getD_eq_getElem?_getD, List.getElem?_set_ne hne,
        List.getElem?_replicate_of_lt hi']
  · intro b c r h
    have hc : ¬(c * r ≤ MAX_CELLS) := by
      simp only [MAX_CELLS]
      omega
    unfold BoardConfig.set_size
    rw [if_neg hc]

/-- Witness for C9: resizing a default board to 2×3 succeeds with `Winning`
on the last cell and `Plain` on cell index 0, while 100×10 (1000 cells) is a
fatal error. -/
theorem C9_witness :
    (∃ b', ({} : BoardConfig).set_size 2 3 = some b' ∧
       b'.cells.getD (b'.size - 1) CellProperty.Plain = CellProperty.Winning ∧
       b'.cells.getD 0 CellProperty.Plain = CellProperty.Plain) ∧
    ({} : BoardConfig).set_size 100 10 = none := by
  constructor
  · obtain ⟨b', h1, -, -, -, -, h6, h7⟩ :=
      C9_set_size.2.1 {} 2 3 (by decide) (by decide)
    exact ⟨b', h1, h6, h7 0 (by decide)⟩
  · exact C9_set_size.2.2 {} 100 10 (by decide)

lemma bump_chain_false_unoccupied (b : BoardConfig) :
    ∀ (fuel : Nat) (players : List PlayerState) (cur delta : Nat)
      (qs : List PlayerState),
      bump_chain b fuel players cur delta = some (qs, false) →
      ∃ j q, qs[j]? = some q ∧ find_other qs q.loc j 0 = none := by
  intro fuel
  induction fuel with
  | zero =>
      intro players cur delta qs h
      simp [bump_chain] at h
  | succ n ih =>
      intro players cur delta qs h
      cases hp : players[cur]? with
      | none => simp [bump_chain, hp] at h
      | some p =>
          cases hm : b.move_wins p delta with
          | none => simp [bump_chain, hp, hm] at h
          | some pw =>
              obtain ⟨p', win⟩ := pw
              cases win with
              | true => simp [bump_chain, hp, hm] at h
              | false =>
                  cases hf : find_other (players.set cur p') p'.loc cur 0 with
                  | some which =>
                      simp only [bump_chain, hp, hm, Bool.false_eq_true,
                        if_false, hf] at h
                      exact ih _ _ _ _ h
                  | none =>
                      simp only [bump_chain, hp, hm, Bool.false_eq_true,
                        if_false, hf, Option.some.injEq, Prod.mk.injEq] at h
                      refine ⟨cur, p', ?_, ?_⟩
                      · rw [← h.1]
                        exact List.getElem?_set_self
                          (List.getElem?_eq_some_iff.mp hp).1
                      · rw [← h.1]
                        exact hf

/-- C3: the bump chain.  When the current mover's landing wins, the chain
stops at once with the mover written back.  When the landing does not win and
another player already occupies the landing cell, that occupant becomes the
current mover with a displacement of exactly one cell — the original mover
keeps the contested cell — and the same landing-cell evaluation recurs.  When
nobody else occupies the cell the chain ends without a win, and any chain
that ends without a win ends with some mover on a cell no other player
occupies. -/
theorem C3_bump_chain (b : BoardConfig) (fuel : Nat)
    (players : List PlayerState) (cur delta : Nat) (p p' : PlayerState)
    (hp : players[cur]? = some p) :
    (b.move_wins p delta = some (p', true) →
       bump_chain b (fuel + 1) players cur delta =
         some (players.set cur p', true)) ∧
    (∀ y, b.move_wins p delta = some (p', false) →
       find_other (players.set cur p') p'.loc cur 0 = some y →
       bump_chain b (fuel + 1) players cur delta =
         bump_chain b fuel (players.set cur p') y 1) ∧
    (b.move_wins p delta = some (p', false) →
       find_other (players.set cur p') p'.loc cur 0 = none →
       bump_chain b (fuel + 1) players cur delta =
         some (players.set cur p', false)) ∧
    (∀ (f : Nat) (qs : List PlayerState),
       bump_chain b f players cur delta = some (qs, false) →
       ∃ j q, qs[j]? = some q ∧ find_other qs q.loc j 0 = none) := by
  refine ⟨?_, ?_, ?_, ?_⟩
  · intro hm
    simp [bump_chain, hp, hm]
  · intro y hm hf
    simp [bump_chain, hp, hm, hf]
  · intro hm hf
    simp [bump_chain, hp, hm, hf]
  · intro f qs h
    exact bump_chain_false_unoccupied b f players cur delta qs h

/-- The 3-cell board for the C3 witness. -/
def w3_board : BoardConfig :=
  { columns := 3, rows := 1, cells := [CellProperty.Plain, CellProperty.Plain, CellProperty.Winning] }

/-- Two players for the C3 witness: A on cell 1 lands on B's cell 2,
bumping B one cell onto the winning cell. -/
def w3_players : List PlayerState :=
  [{ loc := 1, powerup := none }, { loc := 2, powerup := none }]

/-- Witness for C3: the two-player bump chain on `w3_board` where A's landing
bumps B onto the winning cell (a chained win); a single player's chain ends
unbumped on an unoccupied cell and no other player shares it. -/
theorem C3_witness :
    bump_chain w3_board 2 w3_players 0 1 =
      some ([{ loc := 2, powerup := none }, { loc := 3, powerup := none }],
            true) ∧
    bump_chain w3_board 1 [{ loc := 1, powerup := none }] 0 1 =
      some ([{ loc := 2, powerup := none }], false) ∧
    ∃ j q, ([{ loc := 2, powerup := none }] : List PlayerState)[j]? = some q ∧
      find_other [{ loc := 2, powerup := none }] q.loc j 0 = none := by
  have hstep := (C3_bump_chain w3_board 1 w3_players 0 1
    { loc := 1, powerup := none } { loc := 2, powerup := none }
    (by decide)).2.1 1 (by decide) (by decide)
  have hwin := (C3_bump_chain w3_board 0
    (w3_players.set 0 { loc := 2, powerup := none }) 1 1
    { loc := 2, powerup := none } { loc := 3, powerup := none }
    (by decide)).1 (by decide)
  have hend := (C3_bump_chain w3_board 0 [{ loc := 1, powerup := none }] 0 1
    { loc := 1, powerup := none } { loc := 2, powerup := none }
    (by decide)).2.2.1 (by decide) (by decide)
  refine ⟨(hstep.trans hwin).trans (by decide), hend.trans (by decide), ?_⟩
  exact (C3_bump_chain w3_board 0 [{ loc := 1, powerup := none }] 0 1
    { loc := 1, powerup := none } { loc := 2, powerup := none }
    (by decide)).2.2.2 1 [{ loc := 2, powerup := none }] (by decide)

/-- On a well-formed board, a non-winning landing leaves the mover strictly
inside the board. -/
lemma move_wins_false_bounds {b : BoardConfig} {p p' : PlayerState}
    {delta : Nat} (hwf : WFBoard b) (hp1 : 1 ≤ p.loc)
    (h : b.move_wins p delta = some (p', false)) :
    1 ≤ p'.loc ∧ p'.loc < b.size := by
  obtain ⟨hlen, hwin, hcells⟩ := hwf
  cases hc : b.cells[p.loc + delta - 1]? with
  | none => simp [BoardConfig.move_wins, hc] at h
  | some cell =>
      have hidx : p.loc + delta - 1 < b.cells.length :=
        (List.getElem?_eq_some_iff.mp hc).1
      have hgd : b.cells.getD (p.loc + delta - 1) CellProperty.Plain = cell := by
        rw [List.getD_eq_getElem?_getD, hc]
        rfl
      have hok := hcells _ hidx
      rw [hgd] at hok
      have hLge : 1 ≤ p.loc + delta := le_trans hp1 (Nat.le_add_right _ _)
      have hLle : p.loc + delta ≤ b.size := by
        rw [hlen] at hidx
        omega
      have hLlt : cell ≠ CellProperty.Winning → p.loc + delta < b.size := by
        intro hne
        rcases Nat.lt_or_ge (p.loc + delta) b.size with hlt | hge
        · exact hlt
        · exfalso
          apply hne
          rw [← hgd]
          have he : p.loc + delta - 1 = b.size - 1 := by omega
          rw [he, hwin]
      cases cell with
      | Plain =>
          simp [BoardConfig.move_wins, hc] at h
          rw [← h]
          exact ⟨hLge, hLlt (by simp)⟩
      | Winning => simp [BoardConfig.move_wins, hc] at h
      | SnakeStart tgt =>
          by_cases hpa : p.powerup = some PowerType.Antivenom
          · simp [BoardConfig.move_wins, hc, hpa,
              PlayerState.use_antivenom] at h
            rw [← h]
            exact ⟨hLge, hLlt (by simp)⟩
          · simp [BoardConfig.move_wins, hc, hpa, PlayerState.go] at h
            rw [← h]
            exact hok
      | LadderStart tgt =>
          by_cases hpe : p.powerup = some PowerType.Escalator
          · by_cases hcl : b.cells.length ≤
                p.loc + delta + 2 * (tgt - (p.loc + delta))
            · simp [BoardConfig.move_wins, hc, hpe,
                PlayerState.use_escalator, PlayerState.go, hcl] at h
            · simp [BoardConfig.move_wins, hc, hpe,
                PlayerState.use_escalator, hcl] at h
              rw [← h]
              dsimp only
              omega
          · simp [BoardConfig.move_wins, hc, hpe, PlayerState.go] at h
            rw [← h]
            exact hok
      | PowerUp pt =>
          simp [BoardConfig.move_wins, hc, PlayerState.set_powerup] at h
          rw [← h]
          exact ⟨hLge, hLlt (by simp)⟩

/-- On a well-formed board, a winning landing puts the mover at or beyond the
board size. -/
lemma move_wins_true_at_size {b : BoardConfig} {p p' : PlayerState}
    {delta : Nat} (hwf : WFBoard b) (hp1 : 1 ≤ p.loc)
    (h : b.move_wins p delta = some (p', true)) :
    b.size ≤ p'.loc := by
  obtain ⟨hlen, hwin, hcells⟩ := hwf
  cases hc : b.cells[p.loc + delta - 1]? with
  | none => simp [BoardConfig.move_wins, hc] at h
  | some cell =>
      have hidx : p.loc + delta - 1 < b.cells.length :=
        (List.getElem?_eq_some_iff.mp hc).1
      have hgd : b.cells.getD (p.loc + delta - 1) CellProperty.Plain = cell := by
        rw [List.getD_eq_getElem?_getD, hc]
        rfl
      have hok := hcells _ hidx
      rw [hgd] at hok
      have hLge : 1 ≤ p.loc + delta := le_trans hp1 (Nat.le_add_right _ _)
      cases cell with
      | Plain => simp [BoardConfig.move_wins, hc] at h
      | Winning =>
          simp [BoardConfig.move_wins, hc] at h
          rw [← h]
          simp only [cellOK] at hok
          dsimp only
          omega
      | SnakeStart tgt =>
          by_cases hpa : p.powerup = some PowerType.Antivenom <;>
            simp [BoardConfig.move_wins, hc, hpa] at h
      | LadderStart tgt =>
          by_cases hpe : p.powerup = some PowerType.Escalator
          · by_cases hcl : b.cells.length ≤
                p.loc + delta + 2 * (tgt - (p.loc + delta))
            · simp [BoardConfig.move_wins, hc, hpe,
                PlayerState.use_escalator, PlayerState.go, hcl] at h
              rw [← h]
              rw [← hlen]
            · simp [BoardConfig.move_wins, hc, hpe,
                PlayerState.use_escalator, hcl] at h
          · simp [BoardConfig.move_wins, hc, hpe] at h
      | PowerUp pt => simp [BoardConfig.move_wins, hc] at h

/-- Invariant of the bump chain on a well-formed board: starting from players
all strictly inside the board, a winning chain ends with some player at or
beyond the board size, and a non-winning chain keeps every player strictly
inside. -/
lemma bump_chain_win_iff (b : BoardConfig) (hwf : WFBoard b) :
    ∀ (fuel : Nat) (players : List PlayerState) (cur delta : Nat)
      (ps : List PlayerState) (r : Bool),
      (∀ q ∈ players, 1 ≤ q.loc ∧ q.loc < b.size) →
      bump_chain b fuel players cur delta = some (ps, r) →
      (r = true → ∃ q ∈ ps, b.size ≤ q.loc) ∧
      (r = false → ∀ q ∈ ps, 1 ≤ q.loc ∧ q.loc < b.size) := by
  intro fuel
  induction fuel with
  | zero =>
      intro players cur delta ps r hbnds h
      simp [bump_chain] at h
  | succ n ih =>
      intro players cur delta ps r hbnds h
      cases hp : players[cur]? with
      | none => simp [bump_chain, hp] at h
      | some p =>
          have hpmem : p ∈ players := List.getElem?_mem hp
          have hcur : cur < players.length :=
            (List.getElem?_eq_some_iff.mp hp).1
          cases hm : b.move_wins p delta with
          | none => simp [bump_chain, hp, hm] at h
          | some pw =>
              obtain ⟨p', win⟩ := pw
              cases win with
              | true =>
                  simp [bump_chain, hp, hm] at h
                  obtain ⟨hps, hr⟩ := h
                  constructor
                  · intro _
                    refine ⟨p', ?_, ?_⟩
                    · rw [← hps]
                      exact List.getElem?_mem (List.getElem?_set_self hcur)
                    · exact move_wins_true_at_size hwf (hbnds p hpmem).1 hm
                  · intro hr'
                    simp [hr'] at hr
              | false =>
                  have hpb :=
                    move_wins_false_bounds hwf (hbnds p hpmem).1 hm
                  have hbnds' : ∀ q ∈ players.set cur p',
                      1 ≤ q.loc ∧ q.loc < b.size := by
                    intro q hq
                    rcases List.mem_or_eq_of_mem_set hq with hq' | hq'
                    · exact hbnds q hq'
                    · rw [hq']
                      exact hpb
                  cases hf : find_other (players.set cur p') p'.loc cur 0 with
                  | some which =>
                      simp only [bump_chain, hp, hm, Bool.false_eq_true,
                        if_false, hf] at h
                      exact ih _ _ _ _ _ hbnds' h
                  | none =>
                      simp [bump_chain, hp, hm, hf] at h
                      obtain ⟨hps, hr⟩ := h
                      constructor
                      · intro hr'
                        simp [hr'] at hr
                      · intro _
                        rw [← hps]
                        exact hbnds'

/-- The setup for the C2 counterexample: a 3×4 board whose ladder at cell 5
ends exactly on the winning cell 12, one player, and a die of 4. -/
def c2_commands : List Command :=
  [Command.Board 3 4, Command.Players 1, Command.Dice [4],
   Command.Ladder 5 12]

/-- The game state `c2_commands` builds. -/
def c2_pre : GameState :=
  { board := { columns := 3, rows := 4, cells := [CellProperty.Plain, CellProperty.Plain, CellProperty.Plain, CellProperty.Plain, CellProperty.LadderStart 12, CellProperty.Plain, CellProperty.Plain, CellProperty.Plain, CellProperty.Plain, CellProperty.Plain, CellProperty.Plain, CellProperty.Winning] }, players := [{ loc := 1, powerup := none }], dice := [4], turn := 0 }

/-- The state after player A's first roll on `c2_pre`: the ladder carries A
to cell 12. -/
def c2_post : GameState :=
  { c2_pre with players := [{ loc := 12, powerup := none }], turn := 1 }

/-- C2 counterexample: on `c2_pre` every player starts below the board size,
yet the resolved roll returns `false` while leaving a player at cell 12 = the
board size — the returned boolean and the `winner` criterion disagree,
because a ladder transit onto the winning cell is not re-evaluated. -/
theorem C2_counterexample :
    run 10 {} c2_commands = some c2_pre ∧
    c2_pre.players.all (fun q => decide (q.loc < c2_pre.board.size)) = true ∧
    c2_pre.player_turn_wins 0 10 = some (c2_post, false) ∧
    c2_post.players.any
      (fun q => decide (c2_post.board.size ≤ q.loc)) = true := by
  refine ⟨by decide, by decide, by decide, by decide⟩

/-- C2 (amended: in addition the board must be well-formed — cell table
matching the geometry, `Winning` exactly on the last cell, snake and ladder
ends on the board strictly below the winning cell — and every player must
start on a cell, `1 ≤ loc`): a resolved roll returns `true` exactly when some
player afterwards sits at or beyond the board size, so the boolean agrees
with the `winner` query. -/
theorem C2_resolve_win_iff (g : GameState) (who fuel : Nat) (g' : GameState)
    (r : Bool) (hwf : WFBoard g.board)
    (hbnds : ∀ q ∈ g.players, 1 ≤ q.loc ∧ q.loc < g.board.size)
    (h : g.player_turn_wins who fuel = some (g', r)) :
    r = true ↔ ∃ q ∈ g'.players, g.board.size ≤ q.loc := by
  cases hr : g.roll_dice with
  | none => simp [GameState.player_turn_wins, hr] at h
  | some dg =>
      obtain ⟨die, g1⟩ := dg
      obtain ⟨hg1, -⟩ := roll_dice_some hr
      have hpl : g1.players = g.players := by rw [hg1]
      have hbd : g1.board = g.board := by rw [hg1]
      cases hp : g1.players[who]? with
      | none => simp [GameState.player_turn_wins, hr, hp] at h
      | some p =>
          have hpmem : p ∈ g.players := by
            rw [← hpl]
            exact List.getElem?_mem hp
          by_cases hif : g1.board.size < p.loc + (p.use_double die).1
          · simp only [GameState.player_turn_wins, hr, hp, if_pos hif,
              Option.some.injEq, Prod.mk.injEq] at h
            obtain ⟨hg', hrr⟩ := h
            have hgp : g'.players = g1.players.set who (p.use_double die).2 := by
              rw [← hg']
            constructor
            · intro hr'
              rw [hr'] at hrr
              cases hrr
            · rintro ⟨q, hq, hsz⟩
              rw [hgp, hpl] at hq
              rcases List.mem_or_eq_of_mem_set hq with hq' | hq'
              · exact absurd hsz (by simpa using (hbnds q hq').2)
              · rw [hq'] at hsz
                rw [use_double_loc] at hsz
                exact absurd hsz (by simpa using (hbnds p hpmem).2)
          · cases hb : bump_chain g1.board fuel
                (g1.players.set who (p.use_double die).2) who
                (p.use_double die).1 with
            | none =>
                simp [GameState.player_turn_wins, hr, hp, if_neg hif, hb] at h
            | some pw =>
                obtain ⟨ps, win⟩ := pw
                simp only [GameState.player_turn_wins, hr, hp, if_neg hif, hb,
                  Option.some.injEq, Prod.mk.injEq] at h
                obtain ⟨hg', hrr⟩ := h
                have hgp : g'.players = ps := by rw [← hg']
                have hwf1 : WFBoard g1.board := by rw [hbd]; exact hwf
                have hbnds1 : ∀ q ∈ g1.players.set who (p.use_double die).2,
                    1 ≤ q.loc ∧ q.loc < g1.board.size := by
                  intro q hq
                  rw [hbd]
                  rcases List.mem_or_eq_of_mem_set hq with hq' | hq'
                  · exact hbnds q (hpl ▸ hq')
                  · rw [hq', use_double_loc]
                    exact hbnds p hpmem
                have hinv := bump_chain_win_iff g1.board hwf1 fuel _ who _
                  ps win hbnds1 hb
                constructor
                · intro hr'
                  rw [← hrr] at hr'
                  obtain ⟨q, hq, hsz⟩ := hinv.1 hr'
                  refine ⟨q, ?_, ?_⟩
                  · rw [hgp]
                    exact hq
                  · rw [← hbd]
                    exact hsz
                · rintro ⟨q, hq, hsz⟩
                  by_contra hr'
                  have hwin : win = false := by
                    rw [hrr]
                    simpa using hr'
                  have := (hinv.2 hwin q (hgp ▸ hq)).2
                  rw [hbd] at this
                  exact absurd hsz (by simpa using this)

/-- The two-cell board for the C2 witness. -/
def w2_pre : GameState :=
  { board := { columns := 2, rows := 1, cells := [CellProperty.Plain, CellProperty.Winning] }, players := [{ loc := 1, powerup := none }], dice := [1], turn := 0 }

/-- The state after the winning roll on `w2_pre`. -/
def w2_post : GameState :=
  { w2_pre with players := [{ loc := 2, powerup := none }], turn := 1 }

/-- Witness for C2: on the well-formed two-cell board, the winning roll
returns `true` and indeed some player then sits at the board size. -/
theorem C2_witness :
    w2_pre.player_turn_wins 0 1 = some (w2_post, true) ∧
    (true = true ↔ ∃ q ∈ w2_post.players, w2_pre.board.size ≤ q.loc) := by
  refine ⟨by decide, ?_⟩
  exact C2_resolve_win_iff w2_pre 0 1 w2_post true (by decide) (by decide)
    (by decide)

/-- The canonical command sequence (the source's SAMPLE_INPUT). -/
def sample_commands : List Command :=
  [Command.Board 3 4, Command.Players 2, Command.Dice [1, 2, 2, 2, 2],
   Command.Ladder 5 11, Command.Snake 8 4,
   Command.PowerUps PowerType.Escalator [6, 9],
   Command.PowerUps PowerType.Antivenom [7],
   Command.PowerUps PowerType.Double [4], Command.Turns 10]

/-- The state the canonical run ends in: A at cell 4, B at the winning cell
12, after 6 resolved player-turns (out of the up-to-20 requested). -/
def sample_final : GameState :=
  { board := { columns := 3, rows := 4, cells := [CellProperty.Plain, CellProperty.Plain, CellProperty.Plain, CellProperty.PowerUp PowerType.Double, CellProperty.LadderStart 11, CellProperty.PowerUp PowerType.Escalator, CellProperty.PowerUp PowerType.Antivenom, CellProperty.SnakeStart 4, CellProperty.PowerUp PowerType.Escalator, CellProperty.Plain, CellProperty.Plain, CellProperty.Winning] }, players := [{ loc := 4, powerup := none }, { loc := 12, powerup := none }], dice := [1, 2, 2, 2, 2], turn := 6 }

/-- The rendered grid of the canonical final state (the source's
RESULTING_OUTPUT without the winner line). -/
def sample_grid : String :=
  "+---+---+---+\n| 12| 11| 10|\n|B  |   |   |\n+---+---+---+\n|  7|  8|  9|\n| a |  S| e |\n+---+---+---+\n|  6|  5|  4|\n| e |  L|Ad |\n+---+---+---+\n|  1|  2|  3|\n|   |   |   |\n+---+---+---+"

set_option maxRecDepth 4000 in
/-- C1 counterexample: the canonical run's render does not put the
`Player B won` line before the grid — `print` pushes the winner line first
and then reverses the accumulated lines, so it comes last, as the source's
own expected-output test records. -/
theorem C1_counterexample :
    run 100 {} sample_commands = some sample_final ∧
    sample_final.print ≠ "Player B won\n" ++ sample_grid := by
  refine ⟨by decide, by decide⟩

set_option maxRecDepth 4000 in
/-- C1 (amended: the winner line follows the grid instead of preceding it):
the canonical command sequence ends the `turns 10` command early — after 6 of
the up-to-20 player-turns — with player B winning, and `print` produces
exactly the specified grid followed by the line `Player B won`. -/
theorem C1_canonical_run :
    run 100 {} sample_commands = some sample_final ∧
    sample_final.winner = some 'B' ∧
    sample_final.turn = 6 ∧
    sample_final.print = sample_grid ++ "\nPlayer B won" := by
  refine ⟨by decide, by decide, rfl, by decide⟩

end SnakesLadders
